import Mathlib

/-!
Verification of `src/process_watcher.py` against its specification.

The script watches a set of OS processes (given by explicit PID or by
command-line pattern), polls them on an interval, dispatches a notification
through each configured communication backend when a watched process stops,
optionally discovers newly spawned matching processes, and exits when nothing
is left to watch (unless discovery is enabled).

The embedding below models the script's state and control flow directly.
The OS is modelled as a list of running-process snapshots; since the script
queries the OS at several distinct moments (liveness checks, pattern
enumeration, handle creation), each phase receives its own observation of the
OS, which is exactly the race window the real code is exposed to.

The helper module `process` (classes `ProcessByPID`, `ProcessIDs`, exception
`NoProcessFound`, function `pids_with_command_name`) and the `communicate`
backends are collaborators of the script that are not part of `src/`; they are
modelled from the spec where noted.
-/

/-- A running process as observed from the OS: its PID, start time, command
line and name.  A `ProcessByPID` handle stores exactly such a snapshot,
captured at creation time (spec section 3, ProcessSnapshot). -/
structure Snapshot where
  pid : Nat
  startTime : Nat
  commandLine : String
  procName : String
deriving Repr, DecidableEq

/-- A process handle owns the snapshot captured when it was created. -/
abbrev Handle := Snapshot

/-- The exception raised by the `process` module when a PID is not running. -/
inductive PwError where
  | noProcessFound (pid : Nat)
deriving Repr, DecidableEq

/-- Modelled from the spec: `ProcessByPID.__init__` from the repository's
`process` module (not under `src/`).  Looks up the OS process holding `p` and
captures its snapshot; raises `NoProcessFound` when no such process exists
(spec section 4.1, `create`). -/
def processByPID (p : Nat) (env : List Snapshot) : Except PwError Handle :=
  match env.find? (fun s => s.pid == p) with
  | some s => .ok s
  | none => .error (.noProcessFound p)

/-- Modelled from the spec: `ProcessByPID.check` from the `process` module.
Returns `true` (alive) exactly when some currently running process holds the
handle's PID with the same start time as the captured snapshot; a missing PID
or a start-time mismatch (PID reuse) both count as terminated (spec
section 4.1, `check`). -/
def checkHandle (h : Handle) (env : List Snapshot) : Bool :=
  env.any (fun s => s.pid == h.pid && s.startTime == h.startTime)

/-- Modelled from the spec: `ProcessByPID.info` from the `process` module — a
human-readable description built from the captured snapshot (spec
section 4.1, `info`). -/
def infoStr (h : Handle) : String :=
  "PID " ++ toString h.pid ++ " " ++ h.procName ++ ": " ++ h.commandLine

/-- A command pattern, abstracting the regex engine: a predicate on command
lines (unanchored search is the matcher's own business). -/
abbrev Pattern := String → Bool

/-- Modelled from the spec: `pids_with_command_name` from the `process`
module.  Yields the PIDs from the OS enumeration whose command line matches
at least one of the patterns (spec section 4.2). -/
def pidsWithCommandName (pats : List Pattern) (env : List Snapshot) : List Nat :=
  (env.filter (fun s => pats.any (fun m => m s.commandLine))).map (fun s => s.pid)

/-- A loaded communication backend: an identifier together with its `send`
function (the module plus the keyword arguments bound at startup).  `send`
may fail — modelled from the spec's sink contract, section 4.6 — and the
script's dispatch loop decides what a failure does. -/
structure Sink where
  id : Nat
  send : Handle → Except String Unit

/-- One `print` call: line 48-50 of the script shadow the builtin so that
`--quiet` turns every `print` into a no-op. -/
def out (quiet : Bool) (s : String) : List String :=
  if quiet then [] else [s]

/-- The sink dispatch loop, lines 126-127 of the script:
`for comm, send_args in comms: comm.send(process=process, **send_args)`.
There is no exception handler, so the sinks are invoked in order until the
first `send` that raises; the pair returned is the list of performed send
invocations `(sink id, handle)` and the first raised error, if any. -/
def dispatch : List Sink → Handle → List (Nat × Handle) × Option String
  | [], _ => ([], none)
  | c :: rest, h =>
    match c.send h with
    | .ok _ =>
      let r := dispatch rest h
      ((c.id, h) :: r.1, r.2)
    | .error msg => ([(c.id, h)], some msg)

/-- Result of the per-tick scan over the watch dict (lines 118-127). -/
structure ScanResult where
  toDelete : List Nat
  stdout : List String
  sent : List (Nat × Handle)
  err : Option String
deriving Repr

/-- Lines 118-127 of the script: iterate the watch dict in insertion order;
each process whose `check()` is false is appended to `to_delete`, announced
on stdout, and dispatched to every sink.  An exception raised by a sink
propagates, aborting the rest of the scan. -/
def scan (comms : List Sink) (quiet : Bool) (env : List Snapshot) :
    List (Nat × Handle) → ScanResult
  | [] => ⟨[], [], [], none⟩
  | (p, h) :: rest =>
    if checkHandle h env then
      scan comms quiet env rest
    else
      let d := dispatch comms h
      match d.2 with
      | some msg =>
        ⟨[p], out quiet "Process stopped:" ++ out quiet (infoStr h), d.1, some msg⟩
      | none =>
        let r := scan comms quiet env rest
        ⟨p :: r.toDelete,
         (out quiet "Process stopped:" ++ out quiet (infoStr h)) ++ r.stdout,
         d.1 ++ r.sent, r.err⟩

/-- The parsed command-line arguments the core logic reads (section 6 of the
spec): explicit PIDs (`-p`), command patterns (`-c`), the `--watch-new` flag,
the `--to` addresses, the `--notify` flag and `--quiet`.  The polling
interval only controls real time and plays no role in the logic. -/
structure Config where
  pids : List Nat
  patterns : List Pattern
  watchNewFlag : Bool
  toAddrs : List String
  notify : Bool
  quiet : Bool

/-- Line 103 of the script: discovery is active only when `--watch-new` was
given AND at least one command pattern was supplied. -/
def effWatchNew (cfg : Config) : Bool :=
  cfg.watchNewFlag && !cfg.patterns.isEmpty

/-- Availability of the optional communication modules at import time
(`communicate.email`, `communicate.dbus_notify`). -/
structure CommEnv where
  emailOk : Bool
  dbusOk : Bool

/-- Lines 54-78 of the script: build the list of communication backends.
`--to` loads the email module, `--notify` loads the DBus module; an import
failure of a requested module logs and calls `sys.exit(1)`.  The concrete
`send` functions of the two external modules are parameters. -/
def loadComms (cfg : Config) (ce : CommEnv)
    (emailSend dbusSend : Handle → Except String Unit) : Except Nat (List Sink) :=
  if cfg.toAddrs.isEmpty then
    if cfg.notify then
      if ce.dbusOk then .ok [⟨1, dbusSend⟩] else .error 1
    else .ok []
  else if ce.emailOk then
    if cfg.notify then
      if ce.dbusOk then .ok [⟨0, emailSend⟩, ⟨1, dbusSend⟩] else .error 1
    else .ok [⟨0, emailSend⟩]
  else .error 1

/-- The guarded insertion loop shared by lines 87-89 and lines 98-100:
`for pid in l: if pid not in processes: processes[pid] = ProcessByPID(pid)`.
Insertion order is the dict's insertion order; a `NoProcessFound` raised by
`ProcessByPID` aborts the loop and propagates. -/
def addPids (env : List Snapshot) :
    List (Nat × Handle) → List Nat → Except PwError (List (Nat × Handle))
  | st, [] => .ok st
  | st, p :: rest =>
    if st.any (fun e => e.1 == p) then addPids env st rest
    else
      match processByPID p env with
      | .error e => .error e
      | .ok h => addPids env (st ++ [(p, h)]) rest

/-- The OS as observed during the three phases of startup resolution: while
resolving the explicit PIDs (lines 87-89), while enumerating command lines
for the patterns (line 98), and while creating handles for the matched PIDs
(line 100).  The phases are separate OS queries, so each may see a different
process table. -/
structure StartEnv where
  resolveEnv : List Snapshot
  enumEnv : List Snapshot
  createEnv : List Snapshot

/-- The OS as observed during the three phases of one poll tick: the
liveness checks (line 119), the pattern enumeration (line 136), and the
handle creations for newly discovered PIDs (line 138). -/
structure TickEnv where
  checkEnv : List Snapshot
  enumEnv : List Snapshot
  createEnv : List Snapshot

/-- Lines 86-100: populate the watch dict from the explicit PIDs, then — when
patterns were given — from the pattern matches.  The explicit-PID loop's
`NoProcessFound` is the one the `try` at line 86 catches; the pattern loop at
lines 96-100 sits outside that `try`, so its `NoProcessFound` is distinguished
by which fold it came from. -/
def resolvedSet (cfg : Config) (se : StartEnv) : Except PwError (List (Nat × Handle)) :=
  match addPids se.resolveEnv [] cfg.pids with
  | .error e => .error e
  | .ok st1 =>
    if cfg.patterns.isEmpty then .ok st1
    else addPids se.createEnv st1 (pidsWithCommandName cfg.patterns se.enumEnv)

/-- How a run (or its startup) ends. -/
inductive Crash where
  | noProcess (pid : Nat)
  | sinkFailure (msg : String)
deriving Repr, DecidableEq

/-- Program outcome: `success` is `sys.exit()` (exit status 0), `failure` is
`sys.exit(code)` with a nonzero code, `crashed` is an uncaught exception
(nonzero exit status, traceback), and `running st` means the poll loop is
still going with watch dict `st` when the modelled trace of OS observations
ran out. -/
inductive Outcome where
  | success
  | failure (code : Nat)
  | crashed (c : Crash)
  | running (st : List (Nat × Handle))
deriving Repr, DecidableEq

/-- Result of startup: either enter the poll loop with the loaded backends
and the resolved watch dict, or stop with a terminal outcome.  In both cases
the stdout produced so far is recorded. -/
inductive StartResult where
  | proceed (comms : List Sink) (st : List (Nat × Handle)) (stdout : List String)
  | stop (stdout : List String) (o : Outcome)

/-- Lines 45-111 of the script: load the communication backends, resolve the
initial watch dict, compute the effective watch-new flag, exit successfully
when there is nothing to do, and otherwise announce the watched processes.
An explicit PID that is not running prints a message and exits with status 1
(lines 91-93); a `NoProcessFound` from the pattern loop is uncaught. -/
def startup (cfg : Config) (ce : CommEnv)
    (emailSend dbusSend : Handle → Except String Unit) (se : StartEnv) : StartResult :=
  match loadComms cfg ce emailSend dbusSend with
  | .error code => .stop [] (.failure code)
  | .ok comms =>
    match addPids se.resolveEnv [] cfg.pids with
    | .error (.noProcessFound p) =>
      .stop (out cfg.quiet ("No process with PID " ++ toString p)) (.failure 1)
    | .ok st1 =>
      match (if cfg.patterns.isEmpty then Except.ok st1
             else addPids se.createEnv st1 (pidsWithCommandName cfg.patterns se.enumEnv)) with
      | .error (.noProcessFound p) => .stop [] (.crashed (.noProcess p))
      | .ok st2 =>
        if st2.isEmpty && !effWatchNew cfg then
          .stop (out cfg.quiet "No processes found to watch.") .success
        else
          .proceed comms st2
            (out cfg.quiet ("Watching " ++ toString st2.length ++ " processes:")
              ++ st2.flatMap (fun e => out cfg.quiet (infoStr e.2)))

/-- Lines 135-139: the discovery loop.  For every freshly matched PID not
already watched, create a handle (an uncaught `NoProcessFound` propagates),
insert it, and print its info. -/
def discoverFold (env : List Snapshot) (quiet : Bool) :
    List (Nat × Handle) → List Nat → Except PwError (List (Nat × Handle) × List String)
  | st, [] => .ok (st, [])
  | st, p :: rest =>
    if st.any (fun e => e.1 == p) then discoverFold env quiet st rest
    else
      match processByPID p env with
      | .error e => .error e
      | .ok h =>
        match discoverFold env quiet (st ++ [(p, h)]) rest with
        | .error e => .error e
        | .ok (st2, outp) => .ok (st2, out quiet (infoStr h) ++ outp)

/-- Lines 129-133: apply the queued removals after the scan has finished
(`del processes[pid]` for each collected pid, preserving the order of the
surviving entries). -/
def postRemoval (comms : List Sink) (quiet : Bool) (env : List Snapshot)
    (st : List (Nat × Handle)) : List (Nat × Handle) :=
  st.filter (fun e => !((scan comms quiet env st).toDelete.contains e.1))

/-- Result of one poll tick. -/
structure TickResult where
  stdout : List String
  sent : List (Nat × Handle)
  outcome : Outcome

/-- Lines 115-142, one iteration of the `while True` loop: scan every watched
process, apply the queued removals, then either run discovery (when the
effective watch-new flag is set) or exit successfully when the watch dict has
drained.  A sink exception or an uncaught `NoProcessFound` from discovery
aborts the loop. -/
def tick (cfg : Config) (comms : List Sink) (env : TickEnv)
    (st : List (Nat × Handle)) : TickResult :=
  match (scan comms cfg.quiet env.checkEnv st).err with
  | some msg =>
    ⟨(scan comms cfg.quiet env.checkEnv st).stdout,
     (scan comms cfg.quiet env.checkEnv st).sent, .crashed (.sinkFailure msg)⟩
  | none =>
    if effWatchNew cfg then
      match discoverFold env.createEnv cfg.quiet
              (postRemoval comms cfg.quiet env.checkEnv st)
              (pidsWithCommandName cfg.patterns env.enumEnv) with
      | .error (.noProcessFound p) =>
        ⟨(scan comms cfg.quiet env.checkEnv st).stdout,
         (scan comms cfg.quiet env.checkEnv st).sent, .crashed (.noProcess p)⟩
      | .ok (st2, outp) =>
        ⟨(scan comms cfg.quiet env.checkEnv st).stdout ++ outp,
         (scan comms cfg.quiet env.checkEnv st).sent, .running st2⟩
    else if (postRemoval comms cfg.quiet env.checkEnv st).isEmpty then
      ⟨(scan comms cfg.quiet env.checkEnv st).stdout,
       (scan comms cfg.quiet env.checkEnv st).sent, .success⟩
    else
      ⟨(scan comms cfg.quiet env.checkEnv st).stdout,
       (scan comms cfg.quiet env.checkEnv st).sent,
       .running (postRemoval comms cfg.quiet env.checkEnv st)⟩

/-- Cumulative result of running the poll loop over a trace of per-tick OS
observations. -/
structure RunResult where
  stdout : List String
  sent : List (Nat × Handle)
  ticks : Nat
  outcome : Outcome

/-- The poll loop, driven by a finite trace of OS observations; when the
trace runs out the loop is still `running`. -/
def runLoop (cfg : Config) (comms : List Sink) :
    List (Nat × Handle) → List TickEnv → RunResult
  | st, [] => ⟨[], [], 0, .running st⟩
  | st, env :: rest =>
    match (tick cfg comms env st).outcome with
    | .running st2 =>
      ⟨(tick cfg comms env st).stdout ++ (runLoop cfg comms st2 rest).stdout,
       (tick cfg comms env st).sent ++ (runLoop cfg comms st2 rest).sent,
       (runLoop cfg comms st2 rest).ticks + 1,
       (runLoop cfg comms st2 rest).outcome⟩
    | o => ⟨(tick cfg comms env st).stdout, (tick cfg comms env st).sent, 1, o⟩

/-- The watch dict at the start of each executed tick. -/
def loopStates (cfg : Config) (comms : List Sink) :
    List (Nat × Handle) → List TickEnv → List (List (Nat × Handle))
  | _, [] => []
  | st, env :: rest =>
    st ::
      (match (tick cfg comms env st).outcome with
       | .running st2 => loopStates cfg comms st2 rest
       | _ => [])

/-- The whole program: startup followed by the poll loop. -/
def mainRun (cfg : Config) (ce : CommEnv)
    (emailSend dbusSend : Handle → Except String Unit) (se : StartEnv)
    (trace : List TickEnv) : RunResult :=
  match startup cfg ce emailSend dbusSend se with
  | .stop outp o => ⟨outp, [], 0, o⟩
  | .proceed comms st outp =>
    ⟨outp ++ (runLoop cfg comms st trace).stdout,
     (runLoop cfg comms st trace).sent,
     (runLoop cfg comms st trace).ticks,
     (runLoop cfg comms st trace).outcome⟩

/-- The WatchSet invariant (spec section 3): keys are unique and every key's
handle carries a snapshot whose identity is that key. -/
def WatchInv (st : List (Nat × Handle)) : Prop :=
  (st.map Prod.fst).Nodup ∧ ∀ e ∈ st, e.2.pid = e.1

/-! ### Helper lemmas -/

theorem winv_cons {e : Nat × Handle} {rest : List (Nat × Handle)}
    (hw : WatchInv (e :: rest)) :
    WatchInv rest ∧ e.1 ∉ rest.map Prod.fst ∧ e.2.pid = e.1 := by
  obtain ⟨hn, hp⟩ := hw
  rw [List.map_cons, List.nodup_cons] at hn
  exact ⟨⟨hn.2, fun x hx => hp x (List.mem_cons_of_mem e hx)⟩, hn.1,
    hp e (List.mem_cons_self e rest)⟩

theorem processByPID_pid {p : Nat} {env : List Snapshot} {h : Handle}
    (hp : processByPID p env = .ok h) : h.pid = p := by
  unfold processByPID at hp
  cases hf : env.find? (fun s => s.pid == p) with
  | none => rw [hf] at hp; cases hp
  | some s =>
    rw [hf] at hp
    cases hp
    have := List.find?_some hf
    simpa using this

/-- Every invocation recorded by `dispatch` carries the dispatched handle. -/
theorem dispatch_sent_handle {comms : List Sink} {h : Handle} :
    ∀ e ∈ (dispatch comms h).1, e.2 = h := by
  induction comms with
  | nil => intro e he; cases he
  | cons c cr ihc =>
    intro e he
    simp only [dispatch] at he
    cases hs : c.send h with
    | ok u =>
      rw [hs] at he
      rcases List.mem_cons.mp he with h1 | h1
      · rw [h1]
      · exact ihc e h1
    | error m =>
      rw [hs] at he
      rcases List.mem_cons.mp he with h1 | h1
      · rw [h1]
      · cases h1

theorem dispatch_all_ok {comms : List Sink} (h : Handle)
    (hok : ∀ c ∈ comms, ∀ x, c.send x = .ok ()) :
    dispatch comms h = (comms.map (fun c => (c.id, h)), none) := by
  induction comms with
  | nil => rfl
  | cons c rest ih =>
    have hc : c.send h = .ok () := hok c (List.mem_cons_self c rest) h
    have hrest : ∀ c2 ∈ rest, ∀ x, c2.send x = .ok () :=
      fun c2 hm x => hok c2 (List.mem_cons_of_mem c hm) x
    simp [dispatch, hc, ih hrest]

theorem scan_all_ok {comms : List Sink} (quiet : Bool) (env : List Snapshot)
    (st : List (Nat × Handle)) (hok : ∀ c ∈ comms, ∀ x, c.send x = .ok ()) :
    (scan comms quiet env st).err = none ∧
    (scan comms quiet env st).toDelete
      = (st.filter (fun e => !checkHandle e.2 env)).map Prod.fst ∧
    (scan comms quiet env st).sent
      = (st.filter (fun e => !checkHandle e.2 env)).flatMap
          (fun e => comms.map (fun c => (c.id, e.2))) := by
  induction st with
  | nil => exact ⟨rfl, rfl, rfl⟩
  | cons e rest ih =>
    obtain ⟨p, h⟩ := e
    by_cases hc : checkHandle h env
    · simpa [scan, hc, List.filter_cons] using ih
    · have hd := dispatch_all_ok h hok
      simp only [scan, hc, if_false, hd, List.filter_cons, Bool.not_eq_true']
      refine ⟨ih.1, ?_, ?_⟩
      · simp [hc, ih.2.1]
      · simp [hc, ih.2.2]

/-- Every handle dispatched during a scan belongs to an entry of the scanned
watch dict (no hypothesis on the sinks). -/
theorem scan_sent_from_state {comms : List Sink} {quiet : Bool} {env : List Snapshot}
    {st : List (Nat × Handle)} :
    ∀ e ∈ (scan comms quiet env st).sent, ∃ en ∈ st, e.2 = en.2 := by
  induction st with
  | nil => intro e he; cases he
  | cons en0 rest ih =>
    obtain ⟨p, h⟩ := en0
    intro e he
    by_cases hc : checkHandle h env
    · simp only [scan, hc, if_true] at he
      obtain ⟨en, hm, h2⟩ := ih e he
      exact ⟨en, List.mem_cons_of_mem _ hm, h2⟩
    · simp only [scan, hc, if_false] at he
      cases hdd : (dispatch comms h).2 with
      | some msg =>
        rw [hdd] at he
        simp only at he
        exact ⟨(p, h), List.mem_cons_self _ _, dispatch_sent_handle e he⟩
      | none =>
        rw [hdd] at he
        simp only at he
        rcases List.mem_append.mp he with h1 | h1
        · exact ⟨(p, h), List.mem_cons_self _ _, dispatch_sent_handle e h1⟩
        · obtain ⟨en, hm, h2⟩ := ih e h1
          exact ⟨en, List.mem_cons_of_mem _ hm, h2⟩

theorem any_key_iff {st : List (Nat × Handle)} {p : Nat} :
    st.any (fun e => e.1 == p) = true ↔ p ∈ st.map Prod.fst := by
  rw [List.any_eq_true]
  constructor
  · rintro ⟨e, hm, he⟩
    have he2 : e.1 = p := by simpa using he
    exact List.mem_map.mpr ⟨e, hm, he2⟩
  · intro hm
    obtain ⟨e, hm2, he⟩ := List.mem_map.mp hm
    exact ⟨e, hm2, by simp [he]⟩

theorem winv_filter {st : List (Nat × Handle)} (P : Nat × Handle → Bool)
    (hw : WatchInv st) : WatchInv (st.filter P) := by
  constructor
  · exact hw.1.sublist (List.Sublist.map Prod.fst (List.filter_sublist st))
  · intro e he
    exact hw.2 e (List.mem_of_mem_filter he)

theorem winv_append_new {st : List (Nat × Handle)} {p : Nat} {h : Handle}
    (hw : WatchInv st) (hab : p ∉ st.map Prod.fst) (hh : h.pid = p) :
    WatchInv (st ++ [(p, h)]) := by
  constructor
  · rw [List.map_append]
    rw [List.nodup_append]
    refine ⟨hw.1, List.nodup_singleton p, ?_⟩
    intro x hx hy
    simp only [List.map_cons, List.map_nil, List.mem_singleton] at hy
    exact hab (hy ▸ hx)
  · intro e he
    rcases List.mem_append.mp he with h1 | h1
    · exact hw.2 e h1
    · simp only [List.mem_singleton] at h1
      rw [h1]
      exact hh

theorem winv_addPids {env : List Snapshot} {l : List Nat}
    {st st2 : List (Nat × Handle)} (hw : WatchInv st)
    (hr : addPids env st l = .ok st2) : WatchInv st2 := by
  induction l generalizing st with
  | nil => cases hr; exact hw
  | cons p rest ih =>
    simp only [addPids] at hr
    by_cases hm : st.any (fun e => e.1 == p) = true
    · rw [if_pos hm] at hr
      exact ih hw hr
    · rw [if_neg hm] at hr
      cases hp : processByPID p env with
      | error e => rw [hp] at hr; cases hr
      | ok h =>
        rw [hp] at hr
        have hab : p ∉ st.map Prod.fst := fun hc => hm (any_key_iff.mpr hc)
        exact ih (winv_append_new hw hab (processByPID_pid hp)) hr

theorem addPids_keys {env : List Snapshot} {l : List Nat}
    {st st2 : List (Nat × Handle)} (hr : addPids env st l = .ok st2) :
    ∀ x ∈ st2.map Prod.fst, x ∈ st.map Prod.fst ∨ x ∈ l := by
  induction l generalizing st with
  | nil => cases hr; exact fun x hx => Or.inl hx
  | cons p rest ih =>
    simp only [addPids] at hr
    by_cases hm : st.any (fun e => e.1 == p) = true
    · rw [if_pos hm] at hr
      intro x hx
      rcases ih hr x hx with h1 | h1
      · exact Or.inl h1
      · exact Or.inr (List.mem_cons_of_mem p h1)
    · rw [if_neg hm] at hr
      cases hp : processByPID p env with
      | error e => rw [hp] at hr; cases hr
      | ok h =>
        rw [hp] at hr
        intro x hx
        rcases ih hr x hx with h1 | h1
        · rw [List.map_append] at h1
          rcases List.mem_append.mp h1 with h2 | h2
          · exact Or.inl h2
          · simp only [List.map_cons, List.map_nil, List.mem_singleton] at h2
            exact Or.inr (h2 ▸ List.mem_cons_self p rest)
        · exact Or.inr (List.mem_cons_of_mem p h1)

theorem winv_discoverFold {env : List Snapshot} {quiet : Bool} {l : List Nat}
    {st st2 : List (Nat × Handle)} {outp : List String} (hw : WatchInv st)
    (hr : discoverFold env quiet st l = .ok (st2, outp)) : WatchInv st2 := by
  induction l generalizing st outp with
  | nil => cases hr; exact hw
  | cons p rest ih =>
    simp only [discoverFold] at hr
    by_cases hm : st.any (fun e => e.1 == p) = true
    · rw [if_pos hm] at hr
      exact ih hw hr
    · rw [if_neg hm] at hr
      cases hp : processByPID p env with
      | error e => rw [hp] at hr; cases hr
      | ok h =>
        rw [hp] at hr
        simp only at hr
        cases hr2 : discoverFold env quiet (st ++ [(p, h)]) rest with
        | error e => rw [hr2] at hr; cases hr
        | ok pr =>
          rw [hr2] at hr
          obtain ⟨st3, outp3⟩ := pr
          simp only at hr
          cases hr
          have hab : p ∉ st.map Prod.fst := fun hc => hm (any_key_iff.mpr hc)
          exact ih (winv_append_new hw hab (processByPID_pid hp)) hr2

theorem discoverFold_keys {env : List Snapshot} {quiet : Bool} {l : List Nat}
    {st st2 : List (Nat × Handle)} {outp : List String}
    (hr : discoverFold env quiet st l = .ok (st2, outp)) :
    ∀ x ∈ st2.map Prod.fst, x ∈ st.map Prod.fst ∨ x ∈ l := by
  induction l generalizing st outp with
  | nil => cases hr; exact fun x hx => Or.inl hx
  | cons p rest ih =>
    simp only [discoverFold] at hr
    by_cases hm : st.any (fun e => e.1 == p) = true
    · rw [if_pos hm] at hr
      intro x hx
      rcases ih hr x hx with h1 | h1
      · exact Or.inl h1
      · exact Or.inr (List.mem_cons_of_mem p h1)
    · rw [if_neg hm] at hr
      cases hp : processByPID p env with
      | error e => rw [hp] at hr; cases hr
      | ok h =>
        rw [hp] at hr
        simp only at hr
        cases hr2 : discoverFold env quiet (st ++ [(p, h)]) rest with
        | error e => rw [hr2] at hr; cases hr
        | ok pr =>
          rw [hr2] at hr
          obtain ⟨st3, outp3⟩ := pr
          simp only at hr
          cases hr
          intro x hx
          rcases ih hr2 x hx with h1 | h1
          · rw [List.map_append] at h1
            rcases List.mem_append.mp h1 with h2 | h2
            · exact Or.inl h2
            · simp only [List.map_cons, List.map_nil, List.mem_singleton] at h2
              exact Or.inr (h2 ▸ List.mem_cons_self p rest)
          · exact Or.inr (List.mem_cons_of_mem p h1)

theorem scan_cons_alive {comms : List Sink} {quiet : Bool} {env : List Snapshot}
    {p : Nat} {h : Handle} {rest : List (Nat × Handle)}
    (halive : checkHandle h env = true) :
    scan comms quiet env ((p, h) :: rest) = scan comms quiet env rest := by
  simp [scan, halive]

theorem scan_cons_term_ok {comms : List Sink} {quiet : Bool} {env : List Snapshot}
    {p : Nat} {h : Handle} {rest : List (Nat × Handle)}
    (hterm : checkHandle h env = false) (hd : (dispatch comms h).2 = none) :
    scan comms quiet env ((p, h) :: rest)
      = ⟨p :: (scan comms quiet env rest).toDelete,
         (out quiet "Process stopped:" ++ out quiet (infoStr h))
           ++ (scan comms quiet env rest).stdout,
         (dispatch comms h).1 ++ (scan comms quiet env rest).sent,
         (scan comms quiet env rest).err⟩ := by
  simp [scan, hterm, hd]

theorem scan_cons_term_err {comms : List Sink} {quiet : Bool} {env : List Snapshot}
    {p : Nat} {h : Handle} {rest : List (Nat × Handle)} {msg : String}
    (hterm : checkHandle h env = false) (hd : (dispatch comms h).2 = some msg) :
    scan comms quiet env ((p, h) :: rest)
      = ⟨[p], out quiet "Process stopped:" ++ out quiet (infoStr h),
         (dispatch comms h).1, some msg⟩ := by
  simp [scan, hterm, hd]

/-- A scan over a watch dict none of whose handles carries PID `p` dispatches
nothing for PID `p`. -/
theorem scan_sent_pid_free {comms : List Sink} {quiet : Bool} {env : List Snapshot}
    {st : List (Nat × Handle)} {p : Nat} (hfree : ∀ e ∈ st, e.2.pid ≠ p) :
    ((scan comms quiet env st).sent).filter (fun e => e.2.pid == p) = [] := by
  rw [List.filter_eq_nil_iff]
  intro e he
  obtain ⟨en, hm, h2⟩ := scan_sent_from_state e he
  simp [h2, hfree en hm]

/-- During a scan in which the entry `(p, h)` reports terminated and no sink
fails, the dispatched notifications for PID `p` are exactly one send per
configured sink, carrying `h`, in sink registration order. -/
theorem scan_sent_pid {comms : List Sink} {quiet : Bool} {env : List Snapshot}
    {st : List (Nat × Handle)} {p : Nat} {h : Handle}
    (hok : ∀ c ∈ comms, ∀ x, c.send x = .ok ())
    (hinv : WatchInv st) (hmem : (p, h) ∈ st)
    (hterm : checkHandle h env = false) :
    ((scan comms quiet env st).sent).filter (fun e => e.2.pid == p)
      = comms.map (fun c => (c.id, h)) := by
  induction st with
  | nil => cases hmem
  | cons e0 rest ih =>
    obtain ⟨q, h0⟩ := e0
    obtain ⟨hwr, habs, hpid⟩ := winv_cons hinv
    have hdnone : (dispatch comms h0).2 = none := by
      rw [dispatch_all_ok h0 hok]
    rcases List.mem_cons.mp hmem with hcase | hcase
    · injection hcase with hq hh
      subst hq; subst hh
      rw [scan_cons_term_ok hterm hdnone]
      simp only [ScanResult.sent]
      have hfree : ∀ e ∈ rest, e.2.pid ≠ p := by
        intro e he hcontra
        have h1 : e.1 = p := by rw [← hwr.2 e he, hcontra]
        exact habs (List.mem_map.mpr ⟨e, he, h1⟩)
      rw [List.filter_append, scan_sent_pid_free hfree, List.append_nil,
        dispatch_all_ok h hok]
      simp only
      rw [List.filter_eq_self.mpr]
      intro a ha
      obtain ⟨c, _, hc⟩ := List.mem_map.mp ha
      have hp0 : h.pid = p := hpid
      simp [← hc, hp0]
    · have hq : q ≠ p := by
        intro hqp
        exact habs (hqp ▸ List.mem_map.mpr ⟨(p, h), hcase, rfl⟩)
      by_cases hc0 : checkHandle h0 env
      · rw [scan_cons_alive hc0]
        exact ih hwr hcase
      · rw [scan_cons_term_ok (Bool.not_eq_true _ ▸ hc0 : checkHandle h0 env = false) hdnone]
        simp only [ScanResult.sent]
        rw [List.filter_append, ih hwr hcase, dispatch_all_ok h0 hok]
        simp only
        rw [List.filter_eq_nil_iff.mpr, List.nil_append]
        intro a ha
        obtain ⟨c, _, hc⟩ := List.mem_map.mp ha
        have hp0 : h0.pid = q := hpid
        simp [← hc, hp0, hq]

/-- The notifications a tick dispatches are exactly those of its scan
(discovery never notifies). -/
theorem tick_sent_eq_scan (cfg : Config) (comms : List Sink) (env : TickEnv)
    (st : List (Nat × Handle)) :
    (tick cfg comms env st).sent = (scan comms cfg.quiet env.checkEnv st).sent := by
  cases herr : (scan comms cfg.quiet env.checkEnv st).err with
  | some msg => simp [tick, herr]
  | none =>
    by_cases hw : effWatchNew cfg
    · cases hd : discoverFold env.createEnv cfg.quiet
          (postRemoval comms cfg.quiet env.checkEnv st)
          (pidsWithCommandName cfg.patterns env.enumEnv) with
      | error e => cases e; simp [tick, herr, hw, hd]
      | ok pr => obtain ⟨st2, outp⟩ := pr; simp [tick, herr, hw, hd]
    · by_cases he : (postRemoval comms cfg.quiet env.checkEnv st).isEmpty
        <;> simp [tick, herr, hw, he]

/-- A tick preserves the WatchSet invariant. -/
theorem tick_winv {cfg : Config} {comms : List Sink} {env : TickEnv}
    {st st2 : List (Nat × Handle)} (hinv : WatchInv st)
    (hr : (tick cfg comms env st).outcome = .running st2) : WatchInv st2 := by
  have hinv1 : WatchInv (postRemoval comms cfg.quiet env.checkEnv st) :=
    winv_filter _ hinv
  cases herr : (scan comms cfg.quiet env.checkEnv st).err with
  | some msg => simp [tick, herr] at hr
  | none =>
    by_cases hw : effWatchNew cfg
    · cases hd : discoverFold env.createEnv cfg.quiet
          (postRemoval comms cfg.quiet env.checkEnv st)
          (pidsWithCommandName cfg.patterns env.enumEnv) with
      | error e => cases e; simp [tick, herr, hw, hd] at hr
      | ok pr =>
        obtain ⟨st3, outp⟩ := pr
        simp only [tick, herr, hw, if_true, hd] at hr
        cases hr
        exact winv_discoverFold hinv1 hd
    · by_cases he : (postRemoval comms cfg.quiet env.checkEnv st).isEmpty
      · simp [tick, herr, hw, he] at hr
      · simp only [tick, herr, hw, if_false, he, Bool.false_eq_true] at hr
        cases hr
        exact hinv1

/-- A PID absent from the watch dict and not freshly matched stays absent
after a tick. -/
theorem tick_keys_absent {cfg : Config} {comms : List Sink} {env : TickEnv}
    {st st2 : List (Nat × Handle)} {p : Nat}
    (hab : p ∉ st.map Prod.fst)
    (hnm : p ∉ pidsWithCommandName cfg.patterns env.enumEnv)
    (hr : (tick cfg comms env st).outcome = .running st2) :
    p ∉ st2.map Prod.fst := by
  have hab1 : p ∉ (postRemoval comms cfg.quiet env.checkEnv st).map Prod.fst := by
    intro hc
    obtain ⟨e, hm, hee⟩ := List.mem_map.mp hc
    simp only [postRemoval] at hm
    exact hab (List.mem_map.mpr ⟨e, List.mem_of_mem_filter hm, hee⟩)
  cases herr : (scan comms cfg.quiet env.checkEnv st).err with
  | some msg => simp [tick, herr] at hr
  | none =>
    by_cases hw : effWatchNew cfg
    · cases hd : discoverFold env.createEnv cfg.quiet
          (postRemoval comms cfg.quiet env.checkEnv st)
          (pidsWithCommandName cfg.patterns env.enumEnv) with
      | error e => cases e; simp [tick, herr, hw, hd] at hr
      | ok pr =>
        obtain ⟨st3, outp⟩ := pr
        simp only [tick, herr, hw, if_true, hd] at hr
        cases hr
        intro hc
        rcases discoverFold_keys hd p hc with h1 | h1
        · exact hab1 h1
        · exact hnm h1
    · by_cases he : (postRemoval comms cfg.quiet env.checkEnv st).isEmpty
      · simp [tick, herr, hw, he] at hr
      · simp only [tick, herr, hw, if_false, he, Bool.false_eq_true] at hr
        cases hr
        exact hab1

/-- A tick over a watch dict that satisfies the invariant and holds no entry
for PID `p` dispatches nothing for PID `p`. -/
theorem tick_sent_pid_free {cfg : Config} {comms : List Sink} {env : TickEnv}
    {st : List (Nat × Handle)} {p : Nat}
    (hinv : WatchInv st) (hab : p ∉ st.map Prod.fst) :
    ((tick cfg comms env st).sent).filter (fun e => e.2.pid == p) = [] := by
  rw [tick_sent_eq_scan]
  refine scan_sent_pid_free ?_
  intro e he hc
  exact hab (List.mem_map.mpr ⟨e, he, by rw [← hinv.2 e he, hc]⟩)

/-- Once a PID is out of the watch dict and is never matched again by
discovery, no later tick mentions it: no notification for it is dispatched
and it never reappears in any later state of the loop. -/
theorem runLoop_pid_free {cfg : Config} {comms : List Sink}
    {st : List (Nat × Handle)} {trace : List TickEnv} {p : Nat}
    (hinv : WatchInv st) (hab : p ∉ st.map Prod.fst)
    (hnm : ∀ env ∈ trace, p ∉ pidsWithCommandName cfg.patterns env.enumEnv) :
    ((runLoop cfg comms st trace).sent).filter (fun e => e.2.pid == p) = [] ∧
    ∀ st2 ∈ loopStates cfg comms st trace, p ∉ st2.map Prod.fst := by
  induction trace generalizing st with
  | nil => exact ⟨rfl, fun st2 h => absurd h (List.not_mem_nil st2)⟩
  | cons env rest ih =>
    have hnmh : p ∉ pidsWithCommandName cfg.patterns env.enumEnv :=
      hnm env (List.mem_cons_self env rest)
    have hnmr : ∀ env2 ∈ rest, p ∉ pidsWithCommandName cfg.patterns env2.enumEnv :=
      fun env2 hm => hnm env2 (List.mem_cons_of_mem env hm)
    have htf : ((tick cfg comms env st).sent).filter (fun e => e.2.pid == p) = [] :=
      tick_sent_pid_free hinv hab
    cases ht : (tick cfg comms env st).outcome with
    | running st2 =>
      have hw2 : WatchInv st2 := tick_winv hinv ht
      have hab2 : p ∉ st2.map Prod.fst := tick_keys_absent hab hnmh ht
      obtain ⟨ihs, ihst⟩ := ih hw2 hab2 hnmr
      constructor
      · simp only [runLoop, ht, List.filter_append, htf, ihs, List.nil_append]
      · intro st3 hm
        simp only [loopStates, ht] at hm
        rcases List.mem_cons.mp hm with h1 | h1
        · exact h1 ▸ hab
        · exact ihst st3 h1
    | success =>
      refine ⟨by simp only [runLoop, ht, htf], ?_⟩
      intro st3 hm
      simp only [loopStates, ht] at hm
      rcases List.mem_cons.mp hm with h1 | h1
      · exact h1 ▸ hab
      · cases h1
    | failure code =>
      refine ⟨by simp only [runLoop, ht, htf], ?_⟩
      intro st3 hm
      simp only [loopStates, ht] at hm
      rcases List.mem_cons.mp hm with h1 | h1
      · exact h1 ▸ hab
      · cases h1
    | crashed c =>
      refine ⟨by simp only [runLoop, ht, htf], ?_⟩
      intro st3 hm
      simp only [loopStates, ht] at hm
      rcases List.mem_cons.mp hm with h1 | h1
      · exact h1 ▸ hab
      · cases h1

/-- Every state the loop passes through satisfies the WatchSet invariant. -/
theorem loopStates_winv {cfg : Config} {comms : List Sink}
    {st : List (Nat × Handle)} {trace : List TickEnv} (hinv : WatchInv st) :
    ∀ st2 ∈ loopStates cfg comms st trace, WatchInv st2 := by
  induction trace generalizing st with
  | nil => intro st2 hm; cases hm
  | cons env rest ih =>
    intro st2 hm
    cases ht : (tick cfg comms env st).outcome with
    | running st3 =>
      simp only [loopStates, ht] at hm
      rcases List.mem_cons.mp hm with h1 | h1
      · exact h1 ▸ hinv
      · exact ih (tick_winv hinv ht) st2 h1
    | success =>
      simp only [loopStates, ht] at hm
      rcases List.mem_cons.mp hm with h1 | h1
      · exact h1 ▸ hinv
      · cases h1
    | failure code =>
      simp only [loopStates, ht] at hm
      rcases List.mem_cons.mp hm with h1 | h1
      · exact h1 ▸ hinv
      · cases h1
    | crashed c =>
      simp only [loopStates, ht] at hm
      rcases List.mem_cons.mp hm with h1 | h1
      · exact h1 ▸ hinv
      · cases h1

/-- The watch dict produced by a successful startup satisfies the WatchSet
invariant. -/
theorem startup_winv {cfg : Config} {ce : CommEnv}
    {emailSend dbusSend : Handle → Except String Unit} {se : StartEnv}
    {comms : List Sink} {st : List (Nat × Handle)} {outp : List String}
    (hs : startup cfg ce emailSend dbusSend se = .proceed comms st outp) :
    WatchInv st := by
  have hnil : WatchInv ([] : List (Nat × Handle)) :=
    ⟨List.nodup_nil, fun e he => absurd he (List.not_mem_nil e)⟩
  unfold startup at hs
  cases hlc : loadComms cfg ce emailSend dbusSend with
  | error code => rw [hlc] at hs; cases hs
  | ok comms0 =>
    rw [hlc] at hs
    cases ha1 : addPids se.resolveEnv [] cfg.pids with
    | error e => cases e; rw [ha1] at hs; cases hs
    | ok st1 =>
      rw [ha1] at hs
      simp only at hs
      have hw1 : WatchInv st1 := winv_addPids hnil ha1
      cases ha2 : (if cfg.patterns.isEmpty then Except.ok st1
          else addPids se.createEnv st1 (pidsWithCommandName cfg.patterns se.enumEnv)) with
      | error e => cases e; rw [ha2] at hs; cases hs
      | ok st2 =>
        rw [ha2] at hs
        simp only at hs
        have hw2 : WatchInv st2 := by
          by_cases hp : cfg.patterns.isEmpty
          · rw [if_pos hp] at ha2; cases ha2; exact hw1
          · rw [if_neg hp] at ha2; exact winv_addPids hw1 ha2
        by_cases hcond : st2.isEmpty && !effWatchNew cfg
        · rw [if_pos hcond] at hs; cases hs
        · rw [if_neg hcond] at hs
          cases hs
          exact hw2

/-- When no sink can fail, a tick exits with success exactly when discovery
is off and the removals of the tick drained the watch dict. -/
theorem tick_success_iff {cfg : Config} {comms : List Sink} {env : TickEnv}
    {st : List (Nat × Handle)}
    (hok : ∀ c ∈ comms, ∀ x, c.send x = .ok ()) :
    (tick cfg comms env st).outcome = .success ↔
      (effWatchNew cfg = false ∧ postRemoval comms cfg.quiet env.checkEnv st = []) := by
  have herr : (scan comms cfg.quiet env.checkEnv st).err = none :=
    (scan_all_ok cfg.quiet env.checkEnv st hok).1
  by_cases hw : effWatchNew cfg
  · cases hd : discoverFold env.createEnv cfg.quiet
        (postRemoval comms cfg.quiet env.checkEnv st)
        (pidsWithCommandName cfg.patterns env.enumEnv) with
    | error e => cases e; simp [tick, herr, hw, hd]
    | ok pr => obtain ⟨st2, outp⟩ := pr; simp [tick, herr, hw, hd]
  · by_cases he : (postRemoval comms cfg.quiet env.checkEnv st).isEmpty
    · simp only [tick, herr, hw, Bool.false_eq_true, if_false, he, if_true]
      simp only [List.isEmpty_iff] at he
      simp [he, (by simpa using hw : effWatchNew cfg = false)]
    · simp only [tick, herr, hw, Bool.false_eq_true, if_false, he]
      constructor
      · intro hc; cases hc
      · rintro ⟨h1, h2⟩
        rw [h2] at he
        exact absurd rfl he

/-- With discovery enabled a tick never reports success. -/
theorem tick_not_success_of_watchNew {cfg : Config} {comms : List Sink}
    {env : TickEnv} {st : List (Nat × Handle)} (hw : effWatchNew cfg = true) :
    (tick cfg comms env st).outcome ≠ .success := by
  cases herr : (scan comms cfg.quiet env.checkEnv st).err with
  | some msg => simp [tick, herr]
  | none =>
    cases hd : discoverFold env.createEnv cfg.quiet
        (postRemoval comms cfg.quiet env.checkEnv st)
        (pidsWithCommandName cfg.patterns env.enumEnv) with
    | error e => cases e; simp [tick, herr, hw, hd]
    | ok pr => obtain ⟨st2, outp⟩ := pr; simp [tick, herr, hw, hd]

/-- With discovery enabled the loop never terminates on its own, whatever
the trace: the outcome is never success. -/
theorem runLoop_not_success_of_watchNew {cfg : Config} {comms : List Sink}
    {st : List (Nat × Handle)} {trace : List TickEnv}
    (hw : effWatchNew cfg = true) :
    (runLoop cfg comms st trace).outcome ≠ .success := by
  induction trace generalizing st with
  | nil => simp [runLoop]
  | cons env rest ih =>
    cases ht : (tick cfg comms env st).outcome with
    | running st2 => simp only [runLoop, ht]; exact ih
    | success => exact absurd ht (tick_not_success_of_watchNew hw)
    | failure code => simp [runLoop, ht]
    | crashed c => simp [runLoop, ht]

/-! ### Quiet mode only affects stdout -/

theorem scan_quiet (comms : List Sink) (q1 q2 : Bool) (env : List Snapshot)
    (st : List (Nat × Handle)) :
    (scan comms q1 env st).toDelete = (scan comms q2 env st).toDelete ∧
    (scan comms q1 env st).sent = (scan comms q2 env st).sent ∧
    (scan comms q1 env st).err = (scan comms q2 env st).err := by
  induction st with
  | nil => exact ⟨rfl, rfl, rfl⟩
  | cons e0 rest ih =>
    obtain ⟨p, h⟩ := e0
    by_cases hc : checkHandle h env
    · rw [scan_cons_alive hc, scan_cons_alive hc]
      exact ih
    · rw [Bool.not_eq_true] at hc
      cases hd : (dispatch comms h).2 with
      | some msg =>
        rw [scan_cons_term_err hc hd, scan_cons_term_err hc hd]
        exact ⟨rfl, rfl, rfl⟩
      | none =>
        rw [scan_cons_term_ok hc hd, scan_cons_term_ok hc hd]
        exact ⟨by rw [ih.1], by rw [ih.2.1], ih.2.2⟩

theorem postRemoval_quiet (comms : List Sink) (q1 q2 : Bool) (env : List Snapshot)
    (st : List (Nat × Handle)) :
    postRemoval comms q1 env st = postRemoval comms q2 env st := by
  unfold postRemoval
  rw [(scan_quiet comms q1 q2 env st).1]

theorem discoverFold_quiet (env : List Snapshot) (q1 q2 : Bool)
    (st : List (Nat × Handle)) (l : List Nat) :
    (discoverFold env q1 st l).map Prod.fst = (discoverFold env q2 st l).map Prod.fst := by
  induction l generalizing st with
  | nil => rfl
  | cons p rest ih =>
    simp only [discoverFold]
    by_cases hm : st.any (fun e => e.1 == p) = true
    · rw [if_pos hm, if_pos hm]
      exact ih st
    · rw [if_neg hm, if_neg hm]
      cases hp : processByPID p env with
      | error e => rfl
      | ok h =>
        simp only
        have hih := ih (st ++ [(p, h)])
        cases h1 : discoverFold env q1 (st ++ [(p, h)]) rest with
        | error e =>
          cases h2 : discoverFold env q2 (st ++ [(p, h)]) rest with
          | error e2 =>
            rw [h1, h2] at hih
            simp only [Except.map] at hih
            cases hih
            rfl
          | ok pr2 =>
            rw [h1, h2] at hih
            simp [Except.map] at hih
        | ok pr =>
          cases h2 : discoverFold env q2 (st ++ [(p, h)]) rest with
          | error e2 =>
            rw [h1, h2] at hih
            simp [Except.map] at hih
          | ok pr2 =>
            obtain ⟨sa, oa⟩ := pr
            obtain ⟨sb, ob⟩ := pr2
            rw [h1, h2] at hih
            simp only [Except.map] at hih
            cases hih
            rfl

theorem tick_quiet (cfg : Config) (q1 q2 : Bool) (comms : List Sink) (env : TickEnv)
    (st : List (Nat × Handle)) :
    (tick {cfg with quiet := q1} comms env st).sent
      = (tick {cfg with quiet := q2} comms env st).sent ∧
    (tick {cfg with quiet := q1} comms env st).outcome
      = (tick {cfg with quiet := q2} comms env st).outcome := by
  have hsent := (scan_quiet comms q1 q2 env.checkEnv st).2.1
  have herr2 := (scan_quiet comms q1 q2 env.checkEnv st).2.2
  have hpr := postRemoval_quiet comms q1 q2 env.checkEnv st
  have hwn : effWatchNew {cfg with quiet := q1} = effWatchNew {cfg with quiet := q2} := rfl
  cases herr : (scan comms q1 env.checkEnv st).err with
  | some msg =>
    have herrb : (scan comms q2 env.checkEnv st).err = some msg := by
      rw [← herr2, herr]
    simp [tick, herr, herrb, hsent]
  | none =>
    have herrb : (scan comms q2 env.checkEnv st).err = none := by
      rw [← herr2, herr]
    by_cases hw : effWatchNew {cfg with quiet := q1} = true
    · have hw2 : effWatchNew {cfg with quiet := q2} = true := hwn ▸ hw
      have hdq := discoverFold_quiet env.createEnv q1 q2
        (postRemoval comms q1 env.checkEnv st)
        (pidsWithCommandName cfg.patterns env.enumEnv)
      cases hd1 : discoverFold env.createEnv q1 (postRemoval comms q1 env.checkEnv st)
          (pidsWithCommandName cfg.patterns env.enumEnv) with
      | error e =>
        cases hd2 : discoverFold env.createEnv q2 (postRemoval comms q2 env.checkEnv st)
            (pidsWithCommandName cfg.patterns env.enumEnv) with
        | error e2 =>
          have hd2b : discoverFold env.createEnv q2 (postRemoval comms q1 env.checkEnv st)
              (pidsWithCommandName cfg.patterns env.enumEnv) = .error e2 := by
            rw [hpr]; exact hd2
          rw [hd1, hd2b] at hdq
          simp only [Except.map] at hdq
          cases hdq
          cases e
          simp [tick, herr, herrb, hw, hw2, hd1, hd2, hsent]
        | ok pr2 =>
          have hd2b : discoverFold env.createEnv q2 (postRemoval comms q1 env.checkEnv st)
              (pidsWithCommandName cfg.patterns env.enumEnv) = .ok pr2 := by
            rw [hpr]; exact hd2
          rw [hd1, hd2b] at hdq
          simp [Except.map] at hdq
      | ok pr =>
        cases hd2 : discoverFold env.createEnv q2 (postRemoval comms q2 env.checkEnv st)
            (pidsWithCommandName cfg.patterns env.enumEnv) with
        | error e2 =>
          have hd2b : discoverFold env.createEnv q2 (postRemoval comms q1 env.checkEnv st)
              (pidsWithCommandName cfg.patterns env.enumEnv) = .error e2 := by
            rw [hpr]; exact hd2
          rw [hd1, hd2b] at hdq
          simp [Except.map] at hdq
        | ok pr2 =>
          have hd2b : discoverFold env.createEnv q2 (postRemoval comms q1 env.checkEnv st)
              (pidsWithCommandName cfg.patterns env.enumEnv) = .ok pr2 := by
            rw [hpr]; exact hd2
          rw [hd1, hd2b] at hdq
          obtain ⟨sa, oa⟩ := pr
          obtain ⟨sb, ob⟩ := pr2
          simp only [Except.map] at hdq
          cases hdq
          simp [tick, herr, herrb, hw, hw2, hd1, hd2, hsent]
    · have hw2 : ¬ effWatchNew {cfg with quiet := q2} = true := hwn ▸ hw
      by_cases he : (postRemoval comms q1 env.checkEnv st).isEmpty
      · have heb : (postRemoval comms q2 env.checkEnv st).isEmpty = true := hpr ▸ he
        simp [tick, herr, herrb, hw, hw2, he, heb, hsent]
      · have heb : ¬ (postRemoval comms q2 env.checkEnv st).isEmpty = true := hpr ▸ he
        simp [tick, herr, herrb, hw, hw2, he, heb, hsent, hpr]

theorem startup_quiet (cfg : Config) (q1 q2 : Bool) (ce : CommEnv)
    (es ds : Handle → Except String Unit) (se : StartEnv) :
    (∀ o1 oc, startup {cfg with quiet := q1} ce es ds se = .stop o1 oc →
      ∃ o2, startup {cfg with quiet := q2} ce es ds se = .stop o2 oc) ∧
    (∀ comms st o1, startup {cfg with quiet := q1} ce es ds se = .proceed comms st o1 →
      ∃ o2, startup {cfg with quiet := q2} ce es ds se = .proceed comms st o2) := by
  obtain ⟨pids, pats, wn, toa, nf, q0⟩ := cfg
  simp only [startup]
  have hl1 : loadComms ⟨pids, pats, wn, toa, nf, q1⟩ ce es ds
      = loadComms ⟨pids, pats, wn, toa, nf, q2⟩ ce es ds := rfl
  rw [hl1]
  cases hl : loadComms ⟨pids, pats, wn, toa, nf, q2⟩ ce es ds with
  | error code => simp
  | ok comms0 =>
    simp only
    cases ha1 : addPids se.resolveEnv [] pids with
    | error e => cases e; simp
    | ok st1 =>
      simp only
      cases ha2 : (if pats.isEmpty then Except.ok st1
          else addPids se.createEnv st1 (pidsWithCommandName pats se.enumEnv)) with
      | error e => cases e; simp
      | ok st2 =>
        simp only
        by_cases hcond : st2.isEmpty && !effWatchNew ⟨pids, pats, wn, toa, nf, q2⟩
        · have hcond1 : (st2.isEmpty && !effWatchNew ⟨pids, pats, wn, toa, nf, q1⟩) = true :=
            hcond
          rw [if_pos hcond1, if_pos hcond]
          simp
        · have hcond1 : ¬ (st2.isEmpty && !effWatchNew ⟨pids, pats, wn, toa, nf, q1⟩) = true :=
            hcond
          rw [if_neg hcond1, if_neg hcond]
          simp

theorem runLoop_quiet (cfg : Config) (q1 q2 : Bool) (comms : List Sink)
    (st : List (Nat × Handle)) (trace : List TickEnv) :
    (runLoop {cfg with quiet := q1} comms st trace).sent
      = (runLoop {cfg with quiet := q2} comms st trace).sent ∧
    (runLoop {cfg with quiet := q1} comms st trace).ticks
      = (runLoop {cfg with quiet := q2} comms st trace).ticks ∧
    (runLoop {cfg with quiet := q1} comms st trace).outcome
      = (runLoop {cfg with quiet := q2} comms st trace).outcome := by
  induction trace generalizing st with
  | nil => exact ⟨rfl, rfl, rfl⟩
  | cons env rest ih =>
    obtain ⟨hsent, hout⟩ := tick_quiet cfg q1 q2 comms env st
    cases ht1 : (tick {cfg with quiet := q1} comms env st).outcome with
    | running st2 =>
      have ht2 : (tick {cfg with quiet := q2} comms env st).outcome = .running st2 := by
        rw [← hout, ht1]
      obtain ⟨ihs, iht, iho⟩ := ih st2
      refine ⟨?_, ?_, ?_⟩
      · simp only [runLoop, ht1, ht2, hsent, ihs]
      · simp only [runLoop, ht1, ht2, iht]
      · simp only [runLoop, ht1, ht2, iho]
    | success =>
      have ht2 : (tick {cfg with quiet := q2} comms env st).outcome = .success := by
        rw [← hout, ht1]
      simp [runLoop, ht1, ht2, hsent]
    | failure code =>
      have ht2 : (tick {cfg with quiet := q2} comms env st).outcome = .failure code := by
        rw [← hout, ht1]
      simp [runLoop, ht1, ht2, hsent]
    | crashed c =>
      have ht2 : (tick {cfg with quiet := q2} comms env st).outcome = .crashed c := by
        rw [← hout, ht1]
      simp [runLoop, ht1, ht2, hsent]

theorem mainRun_quiet (cfg : Config) (q1 q2 : Bool) (ce : CommEnv)
    (es ds : Handle → Except String Unit) (se : StartEnv) (trace : List TickEnv) :
    (mainRun {cfg with quiet := q1} ce es ds se trace).sent
      = (mainRun {cfg with quiet := q2} ce es ds se trace).sent ∧
    (mainRun {cfg with quiet := q1} ce es ds se trace).ticks
      = (mainRun {cfg with quiet := q2} ce es ds se trace).ticks ∧
    (mainRun {cfg with quiet := q1} ce es ds se trace).outcome
      = (mainRun {cfg with quiet := q2} ce es ds se trace).outcome := by
  obtain ⟨hstop, hproc⟩ := startup_quiet cfg q1 q2 ce es ds se
  cases hs1 : startup {cfg with quiet := q1} ce es ds se with
  | stop o1 oc =>
    obtain ⟨o2, hs2⟩ := hstop o1 oc hs1
    simp [mainRun, hs1, hs2]
  | proceed comms st o1 =>
    obtain ⟨o2, hs2⟩ := hproc comms st o1 hs1
    obtain ⟨hls, hlt, hlo⟩ := runLoop_quiet cfg q1 q2 comms st trace
    simp only [mainRun, hs1, hs2]
    exact ⟨hls, hlt, hlo⟩

/-! ### Startup failure behaviour -/

theorem loadComms_error_code {cfg : Config} {ce : CommEnv}
    {es ds : Handle → Except String Unit} {code : Nat}
    (hl : loadComms cfg ce es ds = .error code) : code = 1 := by
  unfold loadComms at hl
  by_cases h1 : cfg.toAddrs.isEmpty
  · rw [if_pos h1] at hl
    by_cases h2 : cfg.notify
    · rw [if_pos h2] at hl
      by_cases h3 : ce.dbusOk
      · rw [if_pos h3] at hl; cases hl
      · rw [if_neg h3] at hl; cases hl; rfl
    · rw [if_neg h2] at hl; cases hl
  · rw [if_neg h1] at hl
    by_cases h2 : ce.emailOk
    · rw [if_pos h2] at hl
      by_cases h3 : cfg.notify
      · rw [if_pos h3] at hl
        by_cases h4 : ce.dbusOk
        · rw [if_pos h4] at hl; cases hl
        · rw [if_neg h4] at hl; cases hl; rfl
      · rw [if_neg h3] at hl; cases hl
    · rw [if_neg h2] at hl; cases hl; rfl

theorem loadComms_fails {cfg : Config} {ce : CommEnv}
    {es ds : Handle → Except String Unit}
    (h : (cfg.toAddrs ≠ [] ∧ ce.emailOk = false) ∨
         (cfg.notify = true ∧ ce.dbusOk = false)) :
    loadComms cfg ce es ds = .error 1 := by
  unfold loadComms
  rcases h with ⟨h1, h2⟩ | ⟨h1, h2⟩
  · have h1b : ¬ cfg.toAddrs.isEmpty := by
      simpa [List.isEmpty_iff] using h1
    rw [if_neg h1b, h2]
    simp
  · by_cases h3 : cfg.toAddrs.isEmpty
    · rw [if_pos h3, if_pos h1, h2]
      simp
    · rw [if_neg h3]
      by_cases h4 : ce.emailOk
      · rw [if_pos h4, if_pos h1, h2]
        simp
      · rw [if_neg h4]

theorem addPids_error_of_missing {env : List Snapshot} {l : List Nat}
    {st : List (Nat × Handle)} {p : Nat}
    (hm : p ∈ l) (hab : p ∉ st.map Prod.fst)
    (hmiss : env.find? (fun s => s.pid == p) = none) :
    ∃ q, addPids env st l = .error (.noProcessFound q) := by
  induction l generalizing st with
  | nil => cases hm
  | cons a rest ih =>
    simp only [addPids]
    by_cases hin : st.any (fun e => e.1 == a) = true
    · rw [if_pos hin]
      rcases List.mem_cons.mp hm with h1 | h1
      · exact absurd (any_key_iff.mp (h1 ▸ hin)) hab
      · exact ih h1 hab
    · rw [if_neg hin]
      cases hp : processByPID a env with
      | error e => cases e with | noProcessFound q => exact ⟨q, rfl⟩
      | ok h =>
        rcases List.mem_cons.mp hm with h1 | h1
        · subst h1
          unfold processByPID at hp
          rw [hmiss] at hp
          cases hp
        · refine ih h1 ?_
          rw [List.map_append]
          intro hc
          rcases List.mem_append.mp hc with h2 | h2
          · exact hab h2
          · simp only [List.map_cons, List.map_nil, List.mem_singleton] at h2
            subst h2
            have := processByPID_pid hp
            unfold processByPID at hp
            cases hf : env.find? (fun s => s.pid == p) with
            | none =>
              rw [hf] at hp
              cases hp
            | some s => rw [hf] at hmiss; cases hmiss

/-- A startup whose explicit-PID resolution raises `NoProcessFound` (and whose
backends load) prints the message and exits with status 1, and the whole run
dispatches nothing. -/
theorem mainRun_explicit_pid_failure {cfg : Config} {ce : CommEnv}
    {es ds : Handle → Except String Unit} {se : StartEnv} {comms : List Sink}
    {trace : List TickEnv} {p : Nat}
    (hl : loadComms cfg ce es ds = .ok comms)
    (ha : addPids se.resolveEnv [] cfg.pids = .error (.noProcessFound p)) :
    mainRun cfg ce es ds se trace
      = ⟨out cfg.quiet ("No process with PID " ++ toString p), [], 0, .failure 1⟩ := by
  have hs : startup cfg ce es ds se
      = .stop (out cfg.quiet ("No process with PID " ++ toString p)) (.failure 1) := by
    unfold startup
    rw [hl, ha]
  simp [mainRun, hs]

/-- A startup whose backend loading fails exits with status 1 before anything
else happens. -/
theorem mainRun_loadComms_failure {cfg : Config} {ce : CommEnv}
    {es ds : Handle → Except String Unit} {se : StartEnv}
    {trace : List TickEnv} {code : Nat}
    (hl : loadComms cfg ce es ds = .error code) :
    mainRun cfg ce es ds se trace = ⟨[], [], 0, .failure code⟩ := by
  have hs : startup cfg ce es ds se = .stop [] (.failure code) := by
    unfold startup
    rw [hl]
  simp [mainRun, hs]

/-- When startup resolves an empty watch dict and discovery is off, the run
stops at once with success, before any poll tick. -/
theorem mainRun_nothing_to_watch {cfg : Config} {ce : CommEnv}
    {es ds : Handle → Except String Unit} {se : StartEnv} {comms : List Sink}
    {trace : List TickEnv}
    (hl : loadComms cfg ce es ds = .ok comms)
    (hr : resolvedSet cfg se = .ok [])
    (hw : effWatchNew cfg = false) :
    mainRun cfg ce es ds se trace
      = ⟨out cfg.quiet "No processes found to watch.", [], 0, .success⟩ := by
  unfold resolvedSet at hr
  cases ha1 : addPids se.resolveEnv [] cfg.pids with
  | error e => rw [ha1] at hr; cases hr
  | ok st1 =>
    rw [ha1] at hr
    simp only at hr
    have hs : startup cfg ce es ds se
        = .stop (out cfg.quiet "No processes found to watch.") .success := by
      unfold startup
      rw [hl, ha1]
      simp only
      cases ha2 : (if cfg.patterns.isEmpty then Except.ok st1
          else addPids se.createEnv st1 (pidsWithCommandName cfg.patterns se.enumEnv)) with
      | error e =>
        by_cases hp : cfg.patterns.isEmpty
        · rw [if_pos hp] at ha2 hr; cases ha2
        · rw [if_neg hp] at ha2 hr
          rw [ha2] at hr
          cases hr
      | ok st2 =>
        have hst2 : st2 = [] := by
          by_cases hp : cfg.patterns.isEmpty
          · rw [if_pos hp] at ha2 hr
            cases ha2; cases hr; rfl
          · rw [if_neg hp] at ha2 hr
            rw [ha2] at hr
            cases hr; rfl
        subst hst2
        simp [hw]
    simp [mainRun, hs]

/-- Core of the absence argument: a PID missing from the post-removal dict
and not freshly matched is missing from the next state. -/
theorem tick_keys_absent_post {cfg : Config} {comms : List Sink} {env : TickEnv}
    {st st2 : List (Nat × Handle)} {p : Nat}
    (hab1 : p ∉ (postRemoval comms cfg.quiet env.checkEnv st).map Prod.fst)
    (hnm : p ∉ pidsWithCommandName cfg.patterns env.enumEnv)
    (hr : (tick cfg comms env st).outcome = .running st2) :
    p ∉ st2.map Prod.fst := by
  cases herr : (scan comms cfg.quiet env.checkEnv st).err with
  | some msg => simp [tick, herr] at hr
  | none =>
    by_cases hw : effWatchNew cfg
    · cases hd : discoverFold env.createEnv cfg.quiet
          (postRemoval comms cfg.quiet env.checkEnv st)
          (pidsWithCommandName cfg.patterns env.enumEnv) with
      | error e => cases e; simp [tick, herr, hw, hd] at hr
      | ok pr =>
        obtain ⟨st3, outp⟩ := pr
        simp only [tick, herr, hw, if_true, hd] at hr
        cases hr
        intro hc
        rcases discoverFold_keys hd p hc with h1 | h1
        · exact hab1 h1
        · exact hnm h1
    · by_cases he : (postRemoval comms cfg.quiet env.checkEnv st).isEmpty
      · simp [tick, herr, hw, he] at hr
      · simp only [tick, herr, hw, if_false, he, Bool.false_eq_true] at hr
        cases hr
        exact hab1

/-- A terminated entry is removed by the end of its tick and (when it is not
freshly matched either) absent from the next state. -/
theorem tick_removes {cfg : Config} {comms : List Sink} {env : TickEnv}
    {st st2 : List (Nat × Handle)} {p : Nat} {h : Handle}
    (hok : ∀ c ∈ comms, ∀ x, c.send x = .ok ())
    (hmem : (p, h) ∈ st) (hterm : checkHandle h env.checkEnv = false)
    (hnm : p ∉ pidsWithCommandName cfg.patterns env.enumEnv)
    (hr : (tick cfg comms env st).outcome = .running st2) :
    p ∉ st2.map Prod.fst := by
  have htd : p ∈ (scan comms cfg.quiet env.checkEnv st).toDelete := by
    rw [(scan_all_ok cfg.quiet env.checkEnv st hok).2.1]
    exact List.mem_map.mpr ⟨(p, h),
      List.mem_filter.mpr ⟨hmem, by simp [hterm]⟩, rfl⟩
  refine tick_keys_absent_post ?_ hnm hr
  intro hc
  obtain ⟨e, hm, hee⟩ := List.mem_map.mp hc
  simp only [postRemoval, List.mem_filter] at hm
  have : (scan comms cfg.quiet env.checkEnv st).toDelete.contains e.1 = true :=
    List.elem_iff.mpr (hee ▸ htd)
  rw [this] at hm
  exact absurd hm.2 (by simp)

/-- Dispatch reaches exactly the sinks before the first failing one, plus
the failing sink itself. -/
theorem dispatch_fail_after {pre post : List Sink} {c : Sink} {h : Handle}
    {msg : String}
    (hok : ∀ c2 ∈ pre, ∀ x, c2.send x = .ok ())
    (hc : c.send h = .error msg) :
    dispatch (pre ++ c :: post) h
      = (pre.map (fun c2 => (c2.id, h)) ++ [(c.id, h)], some msg) := by
  induction pre with
  | nil => simp [dispatch, hc]
  | cons c2 rest ih =>
    have hc2 : c2.send h = .ok () := hok c2 (List.mem_cons_self c2 rest) h
    have hrest : ∀ c3 ∈ rest, ∀ x, c3.send x = .ok () :=
      fun c3 hm x => hok c3 (List.mem_cons_of_mem c2 hm) x
    simp [dispatch, hc2, ih hrest]

/-! ### Claims -/

/-- C1, counterexample: two registered sinks, the first of which raises on
`send`.  When process 5 terminates, the dispatch loop of lines 126-127
invokes only sink 0 — the healthy sink 1 never receives the event — and the
raised exception escapes the poll loop, which aborts.  This refutes the
claim that a delivery failure in one sink neither prevents the remaining
sinks from being attempted nor aborts the poll loop. -/
theorem sink_failure_cascades_cex :
    (tick ⟨[], [], false, [], false, false⟩
        [⟨0, fun _ => Except.error "boom"⟩, ⟨1, fun _ => Except.ok ()⟩]
        ⟨[], [], []⟩ [(5, ⟨5, 10, "myapp", "myapp"⟩)]).sent
      = [(0, ⟨5, 10, "myapp", "myapp"⟩)] ∧
    (tick ⟨[], [], false, [], false, false⟩
        [⟨0, fun _ => Except.error "boom"⟩, ⟨1, fun _ => Except.ok ()⟩]
        ⟨[], [], []⟩ [(5, ⟨5, 10, "myapp", "myapp"⟩)]).outcome
      = .crashed (.sinkFailure "boom") :=
  ⟨rfl, rfl⟩

/-- C1, amended: the dispatch loop invokes the sinks sequentially in
registration order; when every send succeeds each registered sink is invoked
exactly once per event, but a send that raises stops dispatch for that event
— the sinks after it are not invoked — and the exception aborts the poll
loop. -/
theorem sink_dispatch_sequential_abort :
    ∀ (comms pre post : List Sink) (c : Sink) (h : Handle) (cfg : Config)
      (env : TickEnv) (st : List (Nat × Handle)) (msg : String),
    ((∀ c2 ∈ comms, ∀ x, c2.send x = .ok ()) →
      dispatch comms h = (comms.map (fun c2 => (c2.id, h)), none)) ∧
    ((∀ c2 ∈ pre, ∀ x, c2.send x = .ok ()) → c.send h = .error msg →
      dispatch (pre ++ c :: post) h
        = (pre.map (fun c2 => (c2.id, h)) ++ [(c.id, h)], some msg)) ∧
    ((scan comms cfg.quiet env.checkEnv st).err = some msg →
      (tick cfg comms env st).outcome = .crashed (.sinkFailure msg)) := by
  intro comms pre post c h cfg env st msg
  refine ⟨fun hok => dispatch_all_ok h hok,
    fun hok hc => dispatch_fail_after hok hc, fun herr => ?_⟩
  simp [tick, herr]

/-- C1, witness for the amended theorem at concrete inputs: an all-ok sink
list is fully dispatched; a failing sink at the head stops dispatch before a
healthy sink behind it; a scan error crashes the tick. -/
theorem sink_dispatch_sequential_abort_witness :
    dispatch [⟨0, fun _ => Except.ok ()⟩] ⟨5, 10, "a", "a"⟩
      = ([(0, ⟨5, 10, "a", "a"⟩)], none) ∧
    dispatch [⟨1, fun _ => Except.error "x"⟩, ⟨2, fun _ => Except.ok ()⟩]
        ⟨5, 10, "a", "a"⟩
      = ([(1, ⟨5, 10, "a", "a"⟩)], some "x") :=
  ⟨(sink_dispatch_sequential_abort [⟨0, fun _ => Except.ok ()⟩] [] []
      ⟨0, fun _ => Except.ok ()⟩ ⟨5, 10, "a", "a"⟩
      ⟨[], [], false, [], false, false⟩ ⟨[], [], []⟩ [] "x").1
      (by intro c2 hc2 x; rw [List.mem_singleton] at hc2; subst hc2; rfl),
   (sink_dispatch_sequential_abort []
      [] [⟨2, fun _ => Except.ok ()⟩] ⟨1, fun _ => Except.error "x"⟩
      ⟨5, 10, "a", "a"⟩ ⟨[], [], false, [], false, false⟩ ⟨[], [], []⟩ [] "x").2.1
      (by intro c2 hc2 x; cases hc2) rfl⟩

/-- C2, counterexample: PID 7 matches the pattern during the startup
enumeration but has disappeared by the time `ProcessByPID(7)` runs
(line 100).  The claim says the identity is silently skipped and the run
continues; instead the uncaught `NoProcessFound` aborts the run. -/
theorem pattern_transient_crash_cex :
    startup ⟨[], [fun s => s == "worker"], false, [], false, false⟩ ⟨true, true⟩
        (fun _ => Except.ok ()) (fun _ => Except.ok ())
        ⟨[], [⟨7, 20, "worker", "worker"⟩], []⟩
      = .stop [] (.crashed (.noProcess 7)) :=
  rfl

/-- C2, amended: a `NoProcessFound` raised while creating the handle of a
pattern-matched identity is not caught anywhere: at startup (lines 96-100)
it aborts the run as an uncaught exception, and during a discovery tick
(lines 136-138) it aborts the poll loop; only an explicit PID's resolution
failure is caught, reported with the clean message, and exits with
status 1. -/
theorem pattern_transient_crash :
    ∀ (cfg : Config) (ce : CommEnv) (es ds : Handle → Except String Unit)
      (se : StartEnv) (comms : List Sink) (st1 st : List (Nat × Handle))
      (env : TickEnv) (p : Nat),
    (loadComms cfg ce es ds = .ok comms →
      addPids se.resolveEnv [] cfg.pids = .ok st1 →
      cfg.patterns.isEmpty = false →
      addPids se.createEnv st1 (pidsWithCommandName cfg.patterns se.enumEnv)
        = .error (.noProcessFound p) →
      startup cfg ce es ds se = .stop [] (.crashed (.noProcess p))) ∧
    ((scan comms cfg.quiet env.checkEnv st).err = none →
      effWatchNew cfg = true →
      discoverFold env.createEnv cfg.quiet (postRemoval comms cfg.quiet env.checkEnv st)
          (pidsWithCommandName cfg.patterns env.enumEnv) = .error (.noProcessFound p) →
      (tick cfg comms env st).outcome = .crashed (.noProcess p)) ∧
    (loadComms cfg ce es ds = .ok comms →
      addPids se.resolveEnv [] cfg.pids = .error (.noProcessFound p) →
      startup cfg ce es ds se
        = .stop (out cfg.quiet ("No process with PID " ++ toString p)) (.failure 1)) := by
  intro cfg ce es ds se comms st1 st env p
  refine ⟨fun hl ha1 hp ha2 => ?_, fun herr hw hd => ?_, fun hl ha => ?_⟩
  · unfold startup
    rw [hl, ha1]
    simp only
    rw [if_neg (by simp [hp]), ha2]
  · simp [tick, herr, hw, hd]
  · unfold startup
    rw [hl, ha]

/-- C2, witness for the amended theorem: the concrete crash of the
counterexample scenario at startup, the corresponding discovery-tick crash,
and the clean explicit-PID failure, each produced by the amended theorem. -/
theorem pattern_transient_crash_witness :
    startup ⟨[], [fun s => s == "worker"], false, [], false, false⟩ ⟨true, true⟩
        (fun _ => Except.ok ()) (fun _ => Except.ok ())
        ⟨[], [⟨7, 20, "worker", "worker"⟩], []⟩
      = .stop [] (.crashed (.noProcess 7)) ∧
    (tick ⟨[], [fun s => s == "worker"], true, [], false, false⟩ []
        ⟨[], [⟨7, 20, "worker", "worker"⟩], []⟩ []).outcome
      = .crashed (.noProcess 7) ∧
    startup ⟨[9], [], false, [], false, false⟩ ⟨true, true⟩
        (fun _ => Except.ok ()) (fun _ => Except.ok ())
        ⟨[], [], []⟩
      = .stop (out false ("No process with PID " ++ toString 9)) (.failure 1) :=
  ⟨(pattern_transient_crash ⟨[], [fun s => s == "worker"], false, [], false, false⟩
      ⟨true, true⟩ (fun _ => Except.ok ()) (fun _ => Except.ok ())
      ⟨[], [⟨7, 20, "worker", "worker"⟩], []⟩ [] [] []
      ⟨[], [], []⟩ 7).1 rfl rfl rfl rfl,
   (pattern_transient_crash ⟨[], [fun s => s == "worker"], true, [], false, false⟩
      ⟨true, true⟩ (fun _ => Except.ok ()) (fun _ => Except.ok ())
      ⟨[], [], []⟩ [] [] []
      ⟨[], [⟨7, 20, "worker", "worker"⟩], []⟩ 7).2.1 rfl rfl rfl,
   (pattern_transient_crash ⟨[9], [], false, [], false, false⟩
      ⟨true, true⟩ (fun _ => Except.ok ()) (fun _ => Except.ok ())
      ⟨[], [], []⟩ [] [] []
      ⟨[], [], []⟩ 9).2.2 rfl rfl⟩

/-- C3: when the liveness check of the watched entry `(p, h)` reports
terminated at a tick (and no sink fails), that tick dispatches exactly one
notification per registered sink for `p` — in sink registration order,
carrying the final handle `h` — the identity is removed from the watch dict
once the full scan is applied, and, as long as discovery never matches `p`
again, no later tick ever holds `p` or dispatches a notification for it. -/
theorem termination_notified_once_and_removed :
    ∀ (cfg : Config) (comms : List Sink) (env : TickEnv)
      (st : List (Nat × Handle)) (trace : List TickEnv) (p : Nat) (h : Handle),
    (∀ c ∈ comms, ∀ x, c.send x = .ok ()) →
    WatchInv st → (p, h) ∈ st →
    checkHandle h env.checkEnv = false →
    p ∉ pidsWithCommandName cfg.patterns env.enumEnv →
    (∀ env2 ∈ trace, p ∉ pidsWithCommandName cfg.patterns env2.enumEnv) →
    ((tick cfg comms env st).sent).filter (fun e => e.2.pid == p)
        = comms.map (fun c => (c.id, h)) ∧
    ∀ st2, (tick cfg comms env st).outcome = .running st2 →
      p ∉ st2.map Prod.fst ∧
      ((runLoop cfg comms st2 trace).sent).filter (fun e => e.2.pid == p) = [] ∧
      ∀ st3 ∈ loopStates cfg comms st2 trace, p ∉ st3.map Prod.fst := by
  intro cfg comms env st trace p h hok hinv hmem hterm hnm hnmr
  constructor
  · rw [tick_sent_eq_scan]
    exact scan_sent_pid hok hinv hmem hterm
  · intro st2 hr
    have hab2 : p ∉ st2.map Prod.fst := tick_removes hok hmem hterm hnm hr
    have hinv2 : WatchInv st2 := tick_winv hinv hr
    obtain ⟨hs, hst⟩ := runLoop_pid_free hinv2 hab2 hnmr
    exact ⟨hab2, hs, hst⟩

/-- C3, witness: a single watched process 5 with one sink; the process is
gone at the tick, the sink gets exactly one notification, and over the
following tick the identity never reappears. -/
theorem termination_notified_once_and_removed_witness :
    ((tick ⟨[], [], false, [], false, false⟩ [⟨0, fun _ => Except.ok ()⟩]
        ⟨[], [], []⟩ [(5, ⟨5, 10, "a", "a"⟩)]).sent).filter
        (fun e => e.2.pid == 5)
      = [(0, ⟨5, 10, "a", "a"⟩)] ∧
    ∀ st2, (tick ⟨[], [], false, [], false, false⟩ [⟨0, fun _ => Except.ok ()⟩]
        ⟨[], [], []⟩ [(5, ⟨5, 10, "a", "a"⟩)]).outcome = .running st2 →
      5 ∉ st2.map Prod.fst ∧
      ((runLoop ⟨[], [], false, [], false, false⟩ [⟨0, fun _ => Except.ok ()⟩]
          st2 [⟨[], [], []⟩]).sent).filter (fun e => e.2.pid == 5) = [] ∧
      ∀ st3 ∈ loopStates ⟨[], [], false, [], false, false⟩
          [⟨0, fun _ => Except.ok ()⟩] st2 [⟨[], [], []⟩],
        5 ∉ st3.map Prod.fst :=
  termination_notified_once_and_removed
    ⟨[], [], false, [], false, false⟩ [⟨0, fun _ => Except.ok ()⟩]
    ⟨[], [], []⟩ [(5, ⟨5, 10, "a", "a"⟩)] [⟨[], [], []⟩] 5 ⟨5, 10, "a", "a"⟩
    (by intro c hc x; rw [List.mem_singleton] at hc; subst hc; rfl)
    (by constructor
        · decide
        · intro e he
          rw [List.mem_singleton] at he
          subst he
          rfl)
    (List.mem_singleton.mpr rfl) rfl (by decide)
    (by intro env2 he2; rw [List.mem_singleton] at he2; subst he2; decide)

/-- C4: with sinks that cannot fail, a tick ends the loop with success
exactly when discovery is disabled and that tick's removals leave the watch
dict empty; and whenever discovery is enabled the loop never reports
success, whatever trace of OS observations it runs over. -/
theorem loop_exit_exactly_when_drained :
    ∀ (cfg : Config) (comms : List Sink) (env : TickEnv)
      (st : List (Nat × Handle)) (trace : List TickEnv),
    ((∀ c ∈ comms, ∀ x, c.send x = .ok ()) →
      ((tick cfg comms env st).outcome = .success ↔
        (effWatchNew cfg = false ∧
         postRemoval comms cfg.quiet env.checkEnv st = []))) ∧
    (effWatchNew cfg = true →
      (runLoop cfg comms st trace).outcome ≠ .success) :=
  fun cfg comms env st trace =>
    ⟨fun hok => tick_success_iff hok,
     fun hw => runLoop_not_success_of_watchNew hw⟩

/-- C4, witness: an empty-sink tick whose only process has terminated exits
with success, and with a pattern and the watch-new flag a run over a
one-tick trace does not report success even though the watch dict is
empty. -/
theorem loop_exit_exactly_when_drained_witness :
    (tick ⟨[], [], false, [], false, false⟩ [] ⟨[], [], []⟩
        [(5, ⟨5, 10, "a", "a"⟩)]).outcome = .success ∧
    (runLoop ⟨[], [fun _ => true], true, [], false, false⟩ [] []
        [⟨[], [], []⟩]).outcome ≠ .success :=
  ⟨((loop_exit_exactly_when_drained ⟨[], [], false, [], false, false⟩ []
      ⟨[], [], []⟩ [(5, ⟨5, 10, "a", "a"⟩)] []).1
      (by intro c hc; cases hc)).mpr ⟨rfl, rfl⟩,
   (loop_exit_exactly_when_drained ⟨[], [fun _ => true], true, [], false, false⟩
      [] ⟨[], [], []⟩ [] [⟨[], [], []⟩]).2 rfl⟩

/-- C5: every startup failure — a requested channel whose module cannot be
loaded, or an explicit PID with no running process — makes the whole run
exit with failure status 1 before the poll loop begins: zero ticks are
executed and no notification is ever dispatched. -/
theorem startup_failure_aborts :
    ∀ (cfg : Config) (ce : CommEnv) (es ds : Handle → Except String Unit)
      (se : StartEnv) (trace : List TickEnv),
    ((cfg.toAddrs ≠ [] ∧ ce.emailOk = false) ∨
     (cfg.notify = true ∧ ce.dbusOk = false) ∨
     (∃ p ∈ cfg.pids, se.resolveEnv.find? (fun s => s.pid == p) = none)) →
    (mainRun cfg ce es ds se trace).outcome = .failure 1 ∧
    (mainRun cfg ce es ds se trace).sent = [] ∧
    (mainRun cfg ce es ds se trace).ticks = 0 := by
  intro cfg ce es ds se trace hfail
  rcases hfail with h | h | ⟨p, hp, hmiss⟩
  · rw [mainRun_loadComms_failure (loadComms_fails (Or.inl h))]
    exact ⟨rfl, rfl, rfl⟩
  · rw [mainRun_loadComms_failure (loadComms_fails (Or.inr h))]
    exact ⟨rfl, rfl, rfl⟩
  · cases hl : loadComms cfg ce es ds with
    | error code =>
      have hc1 : code = 1 := loadComms_error_code hl
      subst hc1
      rw [mainRun_loadComms_failure hl]
      exact ⟨rfl, rfl, rfl⟩
    | ok comms =>
      obtain ⟨q, ha⟩ := @addPids_error_of_missing se.resolveEnv cfg.pids [] p
        hp (by simp) hmiss
      rw [mainRun_explicit_pid_failure hl ha]
      exact ⟨rfl, rfl, rfl⟩

/-- C5, witness: a run asked to watch PID 9 while no process 9 exists
exits with failure 1, zero ticks, nothing sent. -/
theorem startup_failure_aborts_witness :
    (mainRun ⟨[9], [], false, [], false, false⟩ ⟨true, true⟩
        (fun _ => Except.ok ()) (fun _ => Except.ok ())
        ⟨[], [], []⟩ [⟨[], [], []⟩]).outcome = .failure 1 ∧
    (mainRun ⟨[9], [], false, [], false, false⟩ ⟨true, true⟩
        (fun _ => Except.ok ()) (fun _ => Except.ok ())
        ⟨[], [], []⟩ [⟨[], [], []⟩]).sent = [] ∧
    (mainRun ⟨[9], [], false, [], false, false⟩ ⟨true, true⟩
        (fun _ => Except.ok ()) (fun _ => Except.ok ())
        ⟨[], [], []⟩ [⟨[], [], []⟩]).ticks = 0 :=
  startup_failure_aborts ⟨[9], [], false, [], false, false⟩ ⟨true, true⟩
    (fun _ => Except.ok ()) (fun _ => Except.ok ())
    ⟨[], [], []⟩ [⟨[], [], []⟩]
    (Or.inr (Or.inr ⟨9, by decide, rfl⟩))

/-- C6: quiet mode never suppresses notification delivery: for the same
configuration, OS observations and sink behaviour, the dispatched
notifications, the number of executed ticks and the final outcome of the run
are identical with and without `--quiet`; only the stdout lines differ. -/
theorem quiet_never_suppresses_delivery :
    ∀ (cfg : Config) (ce : CommEnv) (es ds : Handle → Except String Unit)
      (se : StartEnv) (trace : List TickEnv),
    (mainRun {cfg with quiet := true} ce es ds se trace).sent
      = (mainRun {cfg with quiet := false} ce es ds se trace).sent ∧
    (mainRun {cfg with quiet := true} ce es ds se trace).ticks
      = (mainRun {cfg with quiet := false} ce es ds se trace).ticks ∧
    (mainRun {cfg with quiet := true} ce es ds se trace).outcome
      = (mainRun {cfg with quiet := false} ce es ds se trace).outcome :=
  fun cfg ce es ds se trace => mainRun_quiet cfg true false ce es ds se trace

/-- C7: when the backends load, initial resolution yields an empty watch
dict and discovery is not in effect, the run ends immediately with success:
no poll tick is executed and no notification is ever dispatched. -/
theorem empty_watchset_immediate_success :
    ∀ (cfg : Config) (ce : CommEnv) (es ds : Handle → Except String Unit)
      (se : StartEnv) (comms : List Sink) (trace : List TickEnv),
    loadComms cfg ce es ds = .ok comms →
    resolvedSet cfg se = .ok [] →
    effWatchNew cfg = false →
    mainRun cfg ce es ds se trace
      = ⟨out cfg.quiet "No processes found to watch.", [], 0, .success⟩ :=
  fun _ _ _ _ _ _ _ hl hr hw => mainRun_nothing_to_watch hl hr hw

/-- C7, witness: nothing requested, nothing running: the run exits at once
with success, zero ticks, nothing sent, even with ticks available in the
trace. -/
theorem empty_watchset_immediate_success_witness :
    mainRun ⟨[], [], false, [], false, false⟩ ⟨true, true⟩
        (fun _ => Except.ok ()) (fun _ => Except.ok ())
        ⟨[], [], []⟩ [⟨[], [], []⟩]
      = ⟨["No processes found to watch."], [], 0, .success⟩ :=
  empty_watchset_immediate_success ⟨[], [], false, [], false, false⟩ ⟨true, true⟩
    (fun _ => Except.ok ()) (fun _ => Except.ok ())
    ⟨[], [], []⟩ [] [⟨[], [], []⟩] rfl rfl rfl

/-- C8: the guarded insertions of the script are idempotent — an identity
already present in the watch dict is skipped by the explicit-PID and
startup-pattern loops (`addPids`) and by the discovery loop
(`discoverFold`) — and both loops preserve key uniqueness, so an identity
never has more than one entry or handle. -/
theorem watchset_add_idempotent :
    ∀ (env : List Snapshot) (quiet : Bool) (st st2 : List (Nat × Handle))
      (p : Nat) (rest l : List Nat),
    (p ∈ st.map Prod.fst →
      addPids env st (p :: rest) = addPids env st rest) ∧
    (p ∈ st.map Prod.fst →
      discoverFold env quiet st (p :: rest) = discoverFold env quiet st rest) ∧
    (WatchInv st → addPids env st l = .ok st2 → (st2.map Prod.fst).Nodup) ∧
    (∀ outp, WatchInv st → discoverFold env quiet st l = .ok (st2, outp) →
      (st2.map Prod.fst).Nodup) := by
  intro env quiet st st2 p rest l
  refine ⟨fun hm => ?_, fun hm => ?_, fun hw h => (winv_addPids hw h).1,
    fun outp hw h => (winv_discoverFold hw h).1⟩
  · simp only [addPids, any_key_iff.mpr hm, if_true]
  · simp only [discoverFold, any_key_iff.mpr hm, if_true]

/-- C8, witness: adding PID 5 again while it is watched changes nothing, in
both the resolution fold and the discovery fold. -/
theorem watchset_add_idempotent_witness :
    addPids [] [(5, ⟨5, 10, "a", "a"⟩)] [5] = .ok [(5, ⟨5, 10, "a", "a"⟩)] ∧
    discoverFold [] false [(5, ⟨5, 10, "a", "a"⟩)] [5]
      = .ok ([(5, ⟨5, 10, "a", "a"⟩)], []) := by
  have h := watchset_add_idempotent [] false [(5, ⟨5, 10, "a", "a"⟩)]
    [(5, ⟨5, 10, "a", "a"⟩)] 5 [] [5]
  refine ⟨?_, ?_⟩
  · rw [h.1 (by decide)]; rfl
  · rw [h.2.1 (by decide)]; rfl

/-- C9: whenever startup hands a watch dict to the poll loop, that dict — and
the dict at the start of every executed tick afterwards — has unique keys and
maps each key to a handle whose captured snapshot identity is that key. -/
theorem watchset_invariant_reachable :
    ∀ (cfg : Config) (ce : CommEnv) (es ds : Handle → Except String Unit)
      (se : StartEnv) (comms : List Sink) (st : List (Nat × Handle))
      (outp : List String) (trace : List TickEnv),
    startup cfg ce es ds se = .proceed comms st outp →
    WatchInv st ∧ ∀ st2 ∈ loopStates cfg comms st trace, WatchInv st2 :=
  fun _ _ _ _ _ _ _ _ _ hs => ⟨startup_winv hs, loopStates_winv (startup_winv hs)⟩

/-- C9, witness: a startup that resolves PID 5 yields an invariant-satisfying
watch dict, and the invariant still holds at the next tick's state. -/
theorem watchset_invariant_reachable_witness :
    WatchInv [(5, ⟨5, 10, "a", "a"⟩)] ∧
    ∀ st2 ∈ loopStates ⟨[5], [], false, [], false, true⟩ []
        [(5, ⟨5, 10, "a", "a"⟩)] [⟨[⟨5, 10, "a", "a"⟩], [], []⟩],
      WatchInv st2 :=
  watchset_invariant_reachable ⟨[5], [], false, [], false, true⟩ ⟨true, true⟩
    (fun _ => Except.ok ()) (fun _ => Except.ok ())
    ⟨[⟨5, 10, "a", "a"⟩], [], []⟩ [] [(5, ⟨5, 10, "a", "a"⟩)] []
    [⟨[⟨5, 10, "a", "a"⟩], [], []⟩] rfl

/-- C10: the watch-new flag alone never enables discovery.  With an empty
pattern list the effective flag is off; a tick (with non-failing sinks) then
ends the loop with success exactly when its removals drain the watch dict;
and with no explicit PIDs either, the run (with loadable backends) ends
immediately with success. -/
theorem watch_new_needs_patterns :
    ∀ (cfg : Config) (comms comms2 : List Sink) (env : TickEnv)
      (st : List (Nat × Handle)) (ce : CommEnv)
      (es ds : Handle → Except String Unit) (se : StartEnv)
      (trace : List TickEnv),
    cfg.patterns = [] →
    effWatchNew cfg = false ∧
    ((∀ c ∈ comms, ∀ x, c.send x = .ok ()) →
      ((tick cfg comms env st).outcome = .success ↔
        postRemoval comms cfg.quiet env.checkEnv st = [])) ∧
    (cfg.pids = [] → loadComms cfg ce es ds = .ok comms2 →
      mainRun cfg ce es ds se trace
        = ⟨out cfg.quiet "No processes found to watch.", [], 0, .success⟩) := by
  intro cfg comms comms2 env st ce es ds se trace hp
  have hw : effWatchNew cfg = false := by
    simp [effWatchNew, hp]
  refine ⟨hw, fun hok => ?_, fun hpid hl => ?_⟩
  · rw [tick_success_iff hok]
    simp [hw]
  · refine mainRun_nothing_to_watch hl ?_ hw
    unfold resolvedSet
    rw [hpid]
    simp only [addPids]
    rw [if_pos (by simp [hp])]

/-- C10, witness: watch-new requested with no patterns: discovery stays off,
the drained tick exits with success, and with no PIDs at all the run ends
at once. -/
theorem watch_new_needs_patterns_witness :
    effWatchNew ⟨[], [], true, [], false, false⟩ = false ∧
    ((tick ⟨[], [], true, [], false, false⟩ [] ⟨[], [], []⟩
        [(5, ⟨5, 10, "a", "a"⟩)]).outcome = .success ↔
      postRemoval [] false [] [(5, ⟨5, 10, "a", "a"⟩)] = []) ∧
    mainRun ⟨[], [], true, [], false, false⟩ ⟨true, true⟩
        (fun _ => Except.ok ()) (fun _ => Except.ok ())
        ⟨[], [], []⟩ [⟨[], [], []⟩]
      = ⟨["No processes found to watch."], [], 0, .success⟩ := by
  have h := watch_new_needs_patterns ⟨[], [], true, [], false, false⟩ [] []
    ⟨[], [], []⟩ [(5, ⟨5, 10, "a", "a"⟩)] ⟨true, true⟩
    (fun _ => Except.ok ()) (fun _ => Except.ok ())
    ⟨[], [], []⟩ [⟨[], [], []⟩] rfl
  exact ⟨h.1, h.2.1 (by intro c hc; cases hc), h.2.2 rfl rfl⟩
